import Mathlib

/-!
Verification of the monkey compiler/VM core (Rust sources under src/):
instruction codec (src/code/mod.rs), symbol table
(src/compiler/symbol_table.rs), compiler (src/compiler/mod.rs) and
virtual machine (src/vm/mod.rs), shallowly embedded in Lean.

Machine integers are modelled as Nat/Int with explicit reductions
modulo 2^8 / 2^16 / 2^32 where the Rust code casts or can overflow.
Rust panics are modelled as `Except.error`.  Lexing and parsing are
external collaborators of the specified core, so programs are given
directly as ASTs (the AST types mirror src/parser/mod.rs).
-/

namespace Monkey

/-- Rust enum `Prefix` from src/parser/mod.rs (renamed to avoid a
reserved word). -/
inductive PrefixOp where
  | Bang : PrefixOp
  | Minus : PrefixOp
deriving Repr, DecidableEq

/-- Rust enum `Operator` from src/parser/mod.rs. -/
inductive Operator where
  | Plus : Operator
  | Minus : Operator
  | Multiply : Operator
  | Divide : Operator
  | GreaterThan : Operator
  | LessThan : Operator
  | Equals : Operator
  | NotEquals : Operator
deriving Repr, DecidableEq

mutual
/-- Rust enum `Expr` from src/parser/mod.rs.  `Const` carries an i32;
`PrefixE`/`InfixE` are Rust `Prefix`/`Infix`; `StringLit`/`BoolLit`
are Rust `String`/`Boolean`. -/
inductive Expr where
  | Const : Int → Expr
  | StringLit : String → Expr
  | BoolLit : Bool → Expr
  | Ident : String → Expr
  | PrefixE : PrefixOp → Expr → Expr
  | InfixE : Expr → Operator → Expr → Expr
  | If : Expr → List Statement → List Statement → Expr
  | Function : List String → List Statement → Expr
  | Call : Expr → List Expr → Expr

/-- Rust enum `Statement` from src/parser/mod.rs. -/
inductive Statement where
  | Let : String → Expr → Statement
  | Return : Expr → Statement
  | Expression : Expr → Statement
end

/-- Rust enum `Object` from src/eval/mod.rs (runtime values; `Integer`
carries an i32, `BoolVal` is Rust `Boolean`, `StringVal` is Rust
`String`). -/
inductive Object where
  | Integer : Int → Object
  | StringVal : String → Object
  | BoolVal : Bool → Object
  | Null : Object
  | Return : Object → Object
  | Function : List String → List Statement → Object

/-- Rust enum `OpCode` from src/code/mod.rs.  Operands are u16 values
(Nat, reduced mod 2^16 at encoding time by the byte conversion).
`OpGetGlobal` is Modelled from the spec: the variant is absent from
src/code/mod.rs although the compiler constructs it; the spec opcode
table gives it tag 0x11 with a u16 operand. -/
inductive OpCode where
  | OpConstant : Nat → OpCode
  | OpPop : OpCode
  | OpAdd : OpCode
  | OpSub : OpCode
  | OpMul : OpCode
  | OpDiv : OpCode
  | OpTrue : OpCode
  | OpFalse : OpCode
  | OpEquals : OpCode
  | OpNotEquals : OpCode
  | OpGreaterThan : OpCode
  | OpMinus : OpCode
  | OpBang : OpCode
  | OpJumpNotTrue : Nat → OpCode
  | OpJump : Nat → OpCode
  | OpSetGlobal : Nat → OpCode
  | OpGetGlobal : Nat → OpCode
deriving Repr, DecidableEq

/-- Rust `convert_u16_to_two_u8s_be` (src/code/mod.rs):
`[(integer >> 8) as u8, integer as u8]`; the `as u8` casts are the
explicit `% 256` reductions. -/
def convert_u16_to_two_u8s_be (integer : Nat) : List Nat :=
  [(integer >>> 8) % 256, integer % 256]

/-- Rust `convert_two_u8s_be_to_usize` (src/code/mod.rs):
`((int1 as usize) << 8) | int2`. -/
def convert_two_u8s_be_to_usize (int1 int2 : Nat) : Nat :=
  (int1 <<< 8) ||| int2

/-- Rust `make_op` (src/code/mod.rs): one tag byte, then the
big-endian operand bytes when the opcode has an operand.  The
`OpGetGlobal` arm is Modelled from the spec (tag 0x11, u16 operand);
it is absent from src/code/mod.rs. -/
def make_op : OpCode → List Nat
  | OpCode.OpConstant arg => 0x01 :: convert_u16_to_two_u8s_be arg
  | OpCode.OpPop => [0x02]
  | OpCode.OpAdd => [0x03]
  | OpCode.OpSub => [0x04]
  | OpCode.OpMul => [0x05]
  | OpCode.OpDiv => [0x06]
  | OpCode.OpTrue => [0x07]
  | OpCode.OpFalse => [0x08]
  | OpCode.OpEquals => [0x09]
  | OpCode.OpNotEquals => [0x0A]
  | OpCode.OpGreaterThan => [0x0B]
  | OpCode.OpMinus => [0x0C]
  | OpCode.OpBang => [0x0D]
  | OpCode.OpJumpNotTrue address => 0x0E :: convert_u16_to_two_u8s_be address
  | OpCode.OpJump address => 0x0F :: convert_u16_to_two_u8s_be address
  | OpCode.OpSetGlobal global_id => 0x10 :: convert_u16_to_two_u8s_be global_id
  | OpCode.OpGetGlobal global_id => 0x11 :: convert_u16_to_two_u8s_be global_id

/-- Rust struct `SymbolTable` (src/compiler/symbol_table.rs): a
`HashMap<String, u16>` (modelled as a lookup function) plus the next
index (u16). -/
structure SymbolTable where
  store : String → Option Nat
  next_index : Nat

/-- Rust `SymbolTable::new`. -/
def SymbolTable.new : SymbolTable :=
  { store := fun _ => none, next_index := 0 }

/-- Rust `SymbolTable::define`: returns the current `next_index`,
inserts name ↦ index (overwriting), increments the u16 counter (the
increment wraps mod 2^16, the release-build semantics of `+= 1` on
u16). -/
def SymbolTable.define (t : SymbolTable) (name : String) : Nat × SymbolTable :=
  let index := t.next_index
  (index,
    { store := fun n => if n = name then some index else t.store n,
      next_index := (t.next_index + 1) % 65536 })

/-- Modelled from the spec: `resolve(name) -> slot option` returns the
slot currently bound to the name, else signals "not defined".  The
method is absent from src/compiler/symbol_table.rs although the
compiler calls it. -/
def SymbolTable.resolve (t : SymbolTable) (name : String) : Option Nat :=
  t.store name

/-- Rust struct `ByteCode` (src/compiler/mod.rs). -/
structure ByteCode where
  instructions : List Nat
  constants : List Object

/-- Rust `ByteCode::new`. -/
def ByteCode.new : ByteCode :=
  { instructions := [], constants := [] }

/-- Rust struct `Compiler` (src/compiler/mod.rs). -/
structure Compiler where
  byte_code : ByteCode
  symbol_table : SymbolTable

/-- The fresh compiler state built by `Compiler::compile_from_source`. -/
def Compiler.new : Compiler :=
  { byte_code := ByteCode.new, symbol_table := SymbolTable.new }

/-- Rust `Compiler::add_constant`: push the object and return
`(constants.len() - 1) as u16`. -/
def add_constant (c : Compiler) (obj : Object) : Nat × Compiler :=
  let constants := c.byte_code.constants ++ [obj]
  ((constants.length - 1) % 65536,
    { c with byte_code := { c.byte_code with constants := constants } })

/-- Rust `Compiler::add_instruction`: record the byte position of the
new instruction (`len() as u16`), then append its encoding. -/
def add_instruction (c : Compiler) (op_code : OpCode) : Nat × Compiler :=
  let position_of_new_instruction := c.byte_code.instructions.length % 65536
  (position_of_new_instruction,
    { c with byte_code :=
      { c.byte_code with
        instructions := c.byte_code.instructions ++ make_op op_code } })

/-- Rust `Compiler::change_op`:
`instructions.splice(position..position+op_bytes.len(), op_bytes)`.
`Vec::splice` on an in-range window of the same length as the
replacement; out-of-range positions would panic in Rust and are never
produced by the compiler (the theorems about this carry the in-range
bound). -/
def change_op (c : Compiler) (position : Nat) (op_code : OpCode) : Compiler :=
  let op_bytes := make_op op_code
  { c with byte_code :=
    { c.byte_code with
      instructions :=
        c.byte_code.instructions.take position ++ op_bytes ++
          c.byte_code.instructions.drop (position + op_bytes.length) } }

/-- Rust `Compiler::last_instruction_is_pop`:
`instructions.last() == Some(&make_op(OpPop)[0])` — it compares the
final BYTE of the stream against the Pop tag. -/
def last_instruction_is_pop (c : Compiler) : Bool :=
  c.byte_code.instructions.getLast? == (make_op OpCode.OpPop).head?

/-- Rust `Compiler::remove_last_pop`: `instructions.pop()` drops the
final byte. -/
def remove_last_pop (c : Compiler) : Compiler :=
  { c with byte_code :=
    { c.byte_code with instructions := c.byte_code.instructions.dropLast } }

mutual
/-- Rust `Compiler::compile_expression` (src/compiler/mod.rs).
Panics (`panic!`, `unimplemented!`) are modelled as `Except.error`
with the panic message. -/
def compile_expression (c : Compiler) : Expr → Except String Compiler
  | Expr.Const num => do
      let (const_index, c) := add_constant c (Object.Integer num)
      Except.ok (add_instruction c (OpCode.OpConstant const_index)).2
  | Expr.InfixE left operator right => do
      let c ←
        match operator with
        | Operator.LessThan => do
            let c ← compile_expression c right
            compile_expression c left
        | _ => do
            let c ← compile_expression c left
            compile_expression c right
      match operator with
      | Operator.Plus => Except.ok (add_instruction c OpCode.OpAdd).2
      | Operator.Minus => Except.ok (add_instruction c OpCode.OpSub).2
      | Operator.Multiply => Except.ok (add_instruction c OpCode.OpMul).2
      | Operator.Divide => Except.ok (add_instruction c OpCode.OpDiv).2
      | Operator.Equals => Except.ok (add_instruction c OpCode.OpEquals).2
      | Operator.NotEquals => Except.ok (add_instruction c OpCode.OpNotEquals).2
      | Operator.GreaterThan => Except.ok (add_instruction c OpCode.OpGreaterThan).2
      | Operator.LessThan => Except.ok (add_instruction c OpCode.OpGreaterThan).2
  | Expr.PrefixE PrefixOp.Minus value => do
      let c ← compile_expression c value
      Except.ok (add_instruction c OpCode.OpMinus).2
  | Expr.PrefixE PrefixOp.Bang value => do
      let c ← compile_expression c value
      Except.ok (add_instruction c OpCode.OpBang).2
  | Expr.BoolLit true => Except.ok (add_instruction c OpCode.OpTrue).2
  | Expr.BoolLit false => Except.ok (add_instruction c OpCode.OpFalse).2
  | Expr.If condition consequence alternative => do
      let c ← compile_expression c condition
      let op_jump_position := c.byte_code.instructions.length
      let c := (add_instruction c (OpCode.OpJumpNotTrue 9999)).2
      let c ← compile_statements c consequence
      let c := if last_instruction_is_pop c then remove_last_pop c else c
      if alternative.isEmpty then
        Except.ok (change_op c op_jump_position
          (OpCode.OpJumpNotTrue (c.byte_code.instructions.length % 65536)))
      else do
        let c := change_op c op_jump_position
          (OpCode.OpJumpNotTrue ((c.byte_code.instructions.length % 65536 + 3) % 65536))
        let op_jump_position := c.byte_code.instructions.length
        let c := (add_instruction c (OpCode.OpJump 9999)).2
        let c ← compile_statements c alternative
        let c := if last_instruction_is_pop c then remove_last_pop c else c
        Except.ok (change_op c op_jump_position
          (OpCode.OpJump (c.byte_code.instructions.length % 65536)))
  | Expr.Ident name =>
      match c.symbol_table.resolve name with
      | none => Except.error "attempted to use undefined variable"
      | some index => Except.ok (add_instruction c (OpCode.OpGetGlobal index)).2
  | Expr.StringLit _ => Except.error "unsupported expression"
  | Expr.Function _ _ => Except.error "unsupported expression"
  | Expr.Call _ _ => Except.error "unsupported expression"

/-- Rust `Compiler::compile_statements` (src/compiler/mod.rs). -/
def compile_statements (c : Compiler) : List Statement → Except String Compiler
  | [] => Except.ok c
  | Statement.Let name value :: rest => do
      let c ← compile_expression c value
      let (symbol_index, symtab) := c.symbol_table.define name
      let c := { c with symbol_table := symtab }
      compile_statements (add_instruction c (OpCode.OpSetGlobal symbol_index)).2 rest
  | Statement.Return _ :: _ => Except.error "not implemented"
  | Statement.Expression expr :: rest => do
      let c ← compile_expression c expr
      compile_statements (add_instruction c OpCode.OpPop).2 rest
end

/-- Rust `Compiler::compile_from_source` / `compile_from_source`
(src/compiler/mod.rs), with lexing/parsing (external collaborators)
already applied: compile an AST from a fresh compiler state and return
the byte code. -/
def compile_from_ast (ast : List Statement) : Except String ByteCode := do
  let c ← compile_statements Compiler.new ast
  Except.ok c.byte_code

/-- Rust `const STACK_SIZE` (src/vm/mod.rs). -/
def STACK_SIZE : Nat := 2048

/-- Rust struct `VM` (src/vm/mod.rs).  The fixed-size stack array is
modelled as an index function; slots are never cleared on pop, exactly
as in the source. -/
structure VM where
  instructions : List Nat
  constants : List Object
  stack : Nat → Object
  sp : Nat

/-- Rust `VM::new`: the zeroed stack array stands for all-`Null`
(the source comment: "same result as [Object::Null; STACK_SIZE]"). -/
def VM.new (byte_code : ByteCode) : VM :=
  { instructions := byte_code.instructions,
    constants := byte_code.constants,
    stack := fun _ => Object.Null,
    sp := 0 }

/-- Rust `VM::push`: `stack[sp] = obj; sp += 1`.  Writing past the
fixed array (`sp >= STACK_SIZE`) is an index panic in Rust, modelled
as an error. -/
def VM.push (vm : VM) (obj : Object) : Except String VM :=
  if vm.sp < STACK_SIZE then
    Except.ok
      { vm with
        stack := fun i => if i = vm.sp then obj else vm.stack i,
        sp := vm.sp + 1 }
  else
    Except.error "stack overflow"

/-- Rust `VM::pop`: clone `stack[sp - 1]`, decrement `sp`.  With
`sp = 0` the index underflows and panics in Rust, modelled as an
error. -/
def VM.pop (vm : VM) : Except String (Object × VM) :=
  if vm.sp = 0 then
    Except.error "stack underflow"
  else
    Except.ok (vm.stack (vm.sp - 1), { vm with sp := vm.sp - 1 })

/-- Rust `VM::last_popped`: `stack[sp]`, the most recently popped
slot. -/
def VM.last_popped (vm : VM) : Object :=
  vm.stack vm.sp

/-- Reduction of a signed value into the i32 range, the wrapping
(release-build) semantics of Rust i32 arithmetic. -/
def wrap32 (z : Int) : Int :=
  (z + 2147483648) % 4294967296 - 2147483648

/-- Rust `VM::run` (src/vm/mod.rs): the fetch-decode-execute loop,
made total with a fuel parameter.  The loop handles exactly the opcode
bytes 0x01..0x08; every other fetched byte hits the catch-all
`panic!("unhandled instruction")`.  Arithmetic pops the right operand
first, then the left; non-integer operands panic.  Division by zero
(and i32::MIN / -1) panics in Rust in every build profile. -/
def VM.run_loop (fuel : Nat) (vm : VM) (ip : Nat) : Except String VM :=
  match fuel with
  | 0 => Except.error "fuel exhausted"
  | fuel + 1 =>
    if h : ip < vm.instructions.length then
      let instruction_address := ip
      let ip := ip + 1
      let b := vm.instructions.get ⟨instruction_address, h⟩
      if b = 0x01 then
        match vm.instructions.get? ip, vm.instructions.get? (ip + 1) with
        | some b0, some b1 =>
          let const_index := convert_two_u8s_be_to_usize b0 b1
          match vm.constants.get? const_index with
          | some obj => do
              let vm ← vm.push obj
              VM.run_loop fuel vm (ip + 2)
          | none => Except.error "constant index out of bounds"
        | _, _ => Except.error "instruction truncated"
      else if b = 0x02 then do
        let (_, vm) ← vm.pop
        VM.run_loop fuel vm ip
      else if b = 0x03 then do
        let (r, vm) ← vm.pop
        let (l, vm) ← vm.pop
        match r, l with
        | Object.Integer right, Object.Integer left => do
            let vm ← vm.push (Object.Integer (wrap32 (left + right)))
            VM.run_loop fuel vm ip
        | _, _ => Except.error "unhandled argument types to OpAdd"
      else if b = 0x04 then do
        let (r, vm) ← vm.pop
        let (l, vm) ← vm.pop
        match r, l with
        | Object.Integer right, Object.Integer left => do
            let vm ← vm.push (Object.Integer (wrap32 (left - right)))
            VM.run_loop fuel vm ip
        | _, _ => Except.error "unhandled argument types to OpSub"
      else if b = 0x05 then do
        let (r, vm) ← vm.pop
        let (l, vm) ← vm.pop
        match r, l with
        | Object.Integer right, Object.Integer left => do
            let vm ← vm.push (Object.Integer (wrap32 (left * right)))
            VM.run_loop fuel vm ip
        | _, _ => Except.error "unhandled argument types to OpMul"
      else if b = 0x06 then do
        let (r, vm) ← vm.pop
        let (l, vm) ← vm.pop
        match r, l with
        | Object.Integer right, Object.Integer left =>
            if right = 0 then Except.error "attempt to divide by zero"
            else if left = -2147483648 ∧ right = -1 then
              Except.error "attempt to divide with overflow"
            else do
              let vm ← vm.push (Object.Integer (Int.tdiv left right))
              VM.run_loop fuel vm ip
        | _, _ => Except.error "unhandled argument types to OpDiv"
      else if b = 0x07 then do
        let vm ← vm.push (Object.BoolVal true)
        VM.run_loop fuel vm ip
      else if b = 0x08 then do
        let vm ← vm.push (Object.BoolVal false)
        VM.run_loop fuel vm ip
      else
        Except.error "unhandled instruction"
    else
      Except.ok vm

/-- Run a compiled artifact from a fresh VM (mirrors the repository's
test harness `assert_last_popped`): compile, run, observe the value at
the last-popped stack position. -/
def last_popped_of_run (fuel : Nat) (ast : List Statement) : Except String Object := do
  let byte_code ← compile_from_ast ast
  let vm ← VM.run_loop fuel (VM.new byte_code) 0
  Except.ok vm.last_popped

/-- The AST of the source text `"1 < 2;"`. -/
def lt_program : List Statement :=
  [Statement.Expression (Expr.InfixE (Expr.Const 1) Operator.LessThan (Expr.Const 2))]

/-- The AST of the source text `"2 > 1;"`. -/
def gt_program : List Statement :=
  [Statement.Expression (Expr.InfixE (Expr.Const 2) Operator.GreaterThan (Expr.Const 1))]

/-- The AST of the source text `"if (true) { 10; }; 3333;"`. -/
def if_program : List Statement :=
  [Statement.Expression
    (Expr.If (Expr.BoolLit true) [Statement.Expression (Expr.Const 10)] []),
   Statement.Expression (Expr.Const 3333)]

/-- The AST of the source text
`"if (true) { let a = 1; let b = 2; let c = 3; };"`: the consequence
block ends in a Let statement, whose SetGlobal(2) encoding ends with
the byte 0x02. -/
def setglobal_trap_program : List Statement :=
  [Statement.Expression
    (Expr.If (Expr.BoolLit true)
      [Statement.Let "a" (Expr.Const 1),
       Statement.Let "b" (Expr.Const 2),
       Statement.Let "c" (Expr.Const 3)]
      [])]

/-- Iterated definition of the same name on a symbol table. -/
def define_iter (t : SymbolTable) : Nat → SymbolTable
  | 0 => t
  | k + 1 => ((define_iter t k).define "x").2

/-- A sequence of `define` calls, returning the final table and the
list of returned slots in call order. -/
def define_seq (t : SymbolTable) : List String → SymbolTable × List Nat
  | [] => (t, [])
  | name :: rest =>
      ((define_seq (t.define name).2 rest).1,
        (t.define name).1 :: (define_seq (t.define name).2 rest).2)

/-- The result state of a binary arithmetic step: the two operand
slots are consumed and the result is written where the left operand
(the deeper slot) was. -/
def arith_result (vm : VM) (res : Int) : VM :=
  { vm with
    stack := fun i => if i = vm.sp - 2 then Object.Integer res else vm.stack i,
    sp := vm.sp - 1 }

/-- The AST of the source text `"1 + 2;"`. -/
def add_program : List Statement :=
  [Statement.Expression (Expr.InfixE (Expr.Const 1) Operator.Plus (Expr.Const 2))]

/-- The AST of the source text `"1 - 2;"`. -/
def sub_program : List Statement :=
  [Statement.Expression (Expr.InfixE (Expr.Const 1) Operator.Minus (Expr.Const 2))]

/-- The AST of the source text `"3 * 2;"`. -/
def mul_program : List Statement :=
  [Statement.Expression (Expr.InfixE (Expr.Const 3) Operator.Multiply (Expr.Const 2))]

/-- The AST of the source text `"6 / 2;"`. -/
def div_program : List Statement :=
  [Statement.Expression (Expr.InfixE (Expr.Const 6) Operator.Divide (Expr.Const 2))]

/-- A shifted high byte and a low byte occupy disjoint bit ranges, so
their bitwise or is their sum. -/
lemma shiftLeft_lor_small (a b : Nat) (hb : b < 256) :
    (a <<< 8) ||| b = a * 256 + b := by
  have hb' : b < 2 ^ 8 := hb
  rw [Nat.shiftLeft_eq, Nat.mul_comm a (2 ^ 8), ← Nat.mul_add_lt_is_or hb' a,
    show (2 : Nat) ^ 8 = 256 from rfl, Nat.mul_comm]

/-- C3: encoding any 16-bit value into two big-endian bytes with
`convert_u16_to_two_u8s_be` and decoding them with
`convert_two_u8s_be_to_usize` returns exactly the original value, over
the full `0..=65535` range. -/
theorem convert_roundtrip (v : Nat) (h : v < 65536) :
    convert_two_u8s_be_to_usize
      ((convert_u16_to_two_u8s_be v).headD 0)
      ((convert_u16_to_two_u8s_be v).getLastD 0) = v := by
  show ((v >>> 8) % 256) <<< 8 ||| (v % 256) = v
  have h1 : v >>> 8 = v / 256 := by
    rw [Nat.shiftRight_eq_div_pow]
  have h2 : v / 256 < 256 := by omega
  rw [h1, Nat.mod_eq_of_lt h2,
    shiftLeft_lor_small _ _ (Nat.mod_lt _ (by norm_num))]
  omega

/-- Witness for C3 at the boundary values 0 and 65535. -/
theorem convert_roundtrip_witness :
    ((65535 : Nat) < 65536 ∧
      convert_two_u8s_be_to_usize
        ((convert_u16_to_two_u8s_be 65535).headD 0)
        ((convert_u16_to_two_u8s_be 65535).getLastD 0) = 65535)
    ∧ ((0 : Nat) < 65536 ∧
      convert_two_u8s_be_to_usize
        ((convert_u16_to_two_u8s_be 0).headD 0)
        ((convert_u16_to_two_u8s_be 0).getLastD 0) = 0) :=
  ⟨⟨by norm_num, convert_roundtrip 65535 (by norm_num)⟩,
   ⟨by norm_num, convert_roundtrip 0 (by norm_num)⟩⟩

/-- C2: `make_op` defines every opcode of the spec table and encodes
it as exactly the listed tag byte (0x01 for Constant through 0x10 for
SetGlobal and 0x11 for GetGlobal) followed, for opcodes with an
operand, by the operand's two bytes in big-endian order (high byte
`/ 256 % 256` first, low byte `% 256` second); in particular
`OpGetGlobal` is encodable with tag 0x11. -/
theorem make_op_encoding (a j k s g : Nat) :
    make_op (OpCode.OpConstant a) = [0x01, a / 256 % 256, a % 256]
    ∧ make_op OpCode.OpPop = [0x02]
    ∧ make_op OpCode.OpAdd = [0x03]
    ∧ make_op OpCode.OpSub = [0x04]
    ∧ make_op OpCode.OpMul = [0x05]
    ∧ make_op OpCode.OpDiv = [0x06]
    ∧ make_op OpCode.OpTrue = [0x07]
    ∧ make_op OpCode.OpFalse = [0x08]
    ∧ make_op OpCode.OpEquals = [0x09]
    ∧ make_op OpCode.OpNotEquals = [0x0A]
    ∧ make_op OpCode.OpGreaterThan = [0x0B]
    ∧ make_op OpCode.OpMinus = [0x0C]
    ∧ make_op OpCode.OpBang = [0x0D]
    ∧ make_op (OpCode.OpJumpNotTrue j) = [0x0E, j / 256 % 256, j % 256]
    ∧ make_op (OpCode.OpJump k) = [0x0F, k / 256 % 256, k % 256]
    ∧ make_op (OpCode.OpSetGlobal s) = [0x10, s / 256 % 256, s % 256]
    ∧ make_op (OpCode.OpGetGlobal g) = [0x11, g / 256 % 256, g % 256] := by
  have henc : ∀ n : Nat, convert_u16_to_two_u8s_be n = [n / 256 % 256, n % 256] := by
    intro n
    simp [convert_u16_to_two_u8s_be, Nat.shiftRight_eq_div_pow]
  refine ⟨?_, rfl, rfl, rfl, rfl, rfl, rfl, rfl, rfl, rfl, rfl, rfl, rfl,
    ?_, ?_, ?_, ?_⟩ <;> simp [make_op, henc]

/-- C6: compiling `"1 < 2;"` emits the right operand's code before the
left operand's code and then the GreaterThan opcode (0x0B), giving
Constant(0), Constant(1), GreaterThan, Pop over the constant pool
[Integer 2, Integer 1] — and that compiled artifact is identical to
the one for `"2 > 1;"`. -/
theorem less_than_canonicalized :
    compile_from_ast lt_program =
      Except.ok { instructions := [0x01, 0, 0, 0x01, 0, 1, 0x0B, 0x02],
                  constants := [Object.Integer 2, Object.Integer 1] }
    ∧ compile_from_ast gt_program =
      Except.ok { instructions := [0x01, 0, 0, 0x01, 0, 1, 0x0B, 0x02],
                  constants := [Object.Integer 2, Object.Integer 1] }
    ∧ compile_from_ast lt_program = compile_from_ast gt_program :=
  ⟨rfl, rfl, rfl⟩

/-- C1 (amended): compiling `"if (true) { 10; }; 3333;"` yields
exactly True(0000), JumpIfNotTrue 7(0001), Constant(10)(0004),
Pop(0007), Constant(3333)(0008), Pop(0011) over the constant pool
[Integer 10, Integer 3333]; but running that bytecode does not
produce Integer(3333): the VM pushes `true` for the True opcode and
then fails with the unhandled-instruction error as soon as it fetches
the JumpIfNotTrue byte 0x0E, because its loop implements only opcodes
0x01..0x08. -/
theorem if_true_compile_and_run :
    compile_from_ast if_program =
      Except.ok { instructions := [0x07, 0x0E, 0, 7, 0x01, 0, 0, 0x02, 0x01, 0, 1, 0x02],
                  constants := [Object.Integer 10, Object.Integer 3333] }
    ∧ VM.run_loop 100
        (VM.new { instructions := [0x07, 0x0E, 0, 7, 0x01, 0, 0, 0x02, 0x01, 0, 1, 0x02],
                  constants := [Object.Integer 10, Object.Integer 3333] }) 0 =
      Except.error "unhandled instruction" :=
  ⟨rfl, rfl⟩

/-- C1 counterexample: running the compiled bytecode of
`"if (true) { 10; }; 3333;"` does not leave Integer(3333) as the
final result — the run fails instead of terminating normally. -/
theorem if_true_run_not_3333 :
    last_popped_of_run 100 if_program ≠ Except.ok (Object.Integer 3333) := by
  have h : last_popped_of_run 100 if_program =
      Except.error "unhandled instruction" := rfl
  rw [h]
  exact fun hc => Except.noConfusion hc

/-- C5: the compiler's Pop check misfires on operand bytes.
`last_instruction_is_pop` compares only the final byte of the stream
with the Pop tag, so a stream ending in SetGlobal(2) — encoded
[0x10, 0x00, 0x02] — is reported as ending in a Pop; consequently
compiling `"if (true) { let a = 1; let b = 2; let c = 3; };"` removes
the operand byte of the trailing SetGlobal(2): the consequence
compiles to 18 bytes (three Constant/SetGlobal pairs) but the emitted
stream ends with the truncated pair [0x10, 0x00] followed by the
statement's Pop, 22 bytes in total instead of 23, with the patched
jump target 21 pointing into the middle of the truncated
instruction. -/
theorem last_pop_check_misfires :
    last_instruction_is_pop
      { byte_code := { instructions := make_op (OpCode.OpSetGlobal 2), constants := [] },
        symbol_table := SymbolTable.new } = true
    ∧ compile_from_ast setglobal_trap_program =
      Except.ok
        { instructions := [0x07, 0x0E, 0, 21,
            0x01, 0, 0, 0x10, 0, 0,
            0x01, 0, 1, 0x10, 0, 1,
            0x01, 0, 2, 0x10, 0,
            0x02],
          constants := [Object.Integer 1, Object.Integer 2, Object.Integer 3] } :=
  ⟨rfl, rfl⟩

lemma define_iter_next (k : Nat) :
    (define_iter SymbolTable.new k).next_index = k % 65536 := by
  induction k with
  | zero => rfl
  | succ k ih =>
    simp only [define_iter, SymbolTable.define]
    rw [ih]
    omega

lemma define_fst (t : SymbolTable) (name : String) :
    (t.define name).1 = t.next_index := rfl

/-- C7 counterexample: the slot counter is 16 bits wide, so the
65537-th `define` call on one table returns slot 0 — the same slot
the very first call returned — not the fresh slot 65536 the claim
requires for every sequence of calls. -/
theorem define_slot_reused :
    ((define_iter SymbolTable.new 65536).define "x").1 = 0
    ∧ (SymbolTable.new.define "x").1 = 0 := by
  refine ⟨?_, rfl⟩
  rw [define_fst, define_iter_next]

lemma define_seq_range' (names : List String) (t : SymbolTable) (i : Nat)
    (hnext : t.next_index = i) (hbound : i + names.length ≤ 65536) :
    (define_seq t names).2 = List.range' i names.length := by
  induction names generalizing t i with
  | nil => rfl
  | cons name rest ih =>
    cases rest with
    | nil =>
      simp [define_seq, define_fst, hnext, List.range']
    | cons r rs =>
      have hnext' : ((t.define name).2).next_index = i + 1 := by
        simp only [SymbolTable.define, hnext]
        simp only [List.length_cons] at hbound
        omega
      have hrec := ih (t.define name).2 (i + 1) hnext'
        (by simp only [List.length_cons] at hbound ⊢; omega)
      show (t.define name).1 :: (define_seq (t.define name).2 (r :: rs)).2 =
        List.range' i ((r :: rs).length + 1)
      rw [define_fst, hnext, hrec]
      rfl

/-- C7 (amended): for every sequence of at most 2^16 `define` calls on
one fresh Symbol Table, the n-th call returns slot n-1 — slots start
at 0 and increase by one per call, regardless of whether the name was
defined before — and defining a name overwrites its name-to-slot
entry so that resolving it afterwards yields the newly returned slot.
(The counter is a u16, so beyond 2^16 calls it wraps and slots
recur.)  In particular the two `let` statements of
`"let one = 1; let two = 2;"` receive slots 0 and 1. -/
theorem define_slots_sequential (names : List String)
    (h : names.length ≤ 65536) :
    (define_seq SymbolTable.new names).2 = List.range names.length
    ∧ ∀ (t : SymbolTable) (name : String),
        ((t.define name).2).resolve name = some (t.define name).1 := by
  constructor
  · rw [List.range_eq_range']
    exact define_seq_range' names SymbolTable.new 0 rfl (by omega)
  · intro t name
    simp [SymbolTable.define, SymbolTable.resolve]

/-- Witness for C7 at the spec's example `"let one = 1; let two = 2;"`:
the two defines return slots 0 and 1 in order. -/
theorem define_slots_sequential_witness :
    (["one", "two"].length ≤ 65536
      ∧ (define_seq SymbolTable.new ["one", "two"]).2 = List.range 2)
    ∧ compile_from_ast
        [Statement.Let "one" (Expr.Const 1), Statement.Let "two" (Expr.Const 2)] =
      Except.ok { instructions := [0x01, 0, 0, 0x10, 0, 0, 0x01, 0, 1, 0x10, 0, 1],
                  constants := [Object.Integer 1, Object.Integer 2] } :=
  ⟨⟨by norm_num, (define_slots_sequential ["one", "two"] (by norm_num)).1⟩, rfl⟩

/-- C8: compiling an identifier reference resolves it in the symbol
table first: when the name is unbound the compiler fails with the
undefined-variable error and produces no state at all (so no
instruction is emitted for the reference and the caller receives no
bytecode for the failing statement); when the name is bound to a slot
the compiler emits exactly GetGlobal(slot) after the existing
instructions.  The third conjunct shows the whole-program fatal path:
a fresh compilation of a program referencing an unbound name returns
the error, not bytecode. -/
theorem compile_ident_resolution (c : Compiler) (name : String) :
    (c.symbol_table.resolve name = none →
      compile_expression c (Expr.Ident name) =
        Except.error "attempted to use undefined variable")
    ∧ (∀ slot, c.symbol_table.resolve name = some slot →
        compile_expression c (Expr.Ident name) =
          Except.ok
            { c with byte_code :=
              { c.byte_code with
                instructions :=
                  c.byte_code.instructions ++ make_op (OpCode.OpGetGlobal slot) } })
    ∧ compile_from_ast [Statement.Expression (Expr.Ident name)] =
        Except.error "attempted to use undefined variable" := by
  refine ⟨?_, ?_, rfl⟩
  · intro h
    simp [compile_expression, h]
  · intro slot h
    simp [compile_expression, h, add_instruction]

/-- Witness for C8: the unbound name "y" fails on a table holding
only "x"; the bound name "x" (slot 0) compiles to GetGlobal(0). -/
theorem compile_ident_resolution_witness :
    compile_expression
      { byte_code := ByteCode.new, symbol_table := (SymbolTable.new.define "x").2 }
      (Expr.Ident "y") = Except.error "attempted to use undefined variable"
    ∧ compile_expression
      { byte_code := ByteCode.new, symbol_table := (SymbolTable.new.define "x").2 }
      (Expr.Ident "x") =
      Except.ok
        { byte_code := { instructions := [0x11, 0, 0], constants := [] },
          symbol_table := (SymbolTable.new.define "x").2 } :=
  ⟨(compile_ident_resolution
      { byte_code := ByteCode.new, symbol_table := (SymbolTable.new.define "x").2 }
      "y").1 rfl,
   by
    have h := (compile_ident_resolution
      { byte_code := ByteCode.new, symbol_table := (SymbolTable.new.define "x").2 }
      "x").2.1 0 rfl
    simpa [make_op, convert_u16_to_two_u8s_be, ByteCode.new] using h⟩

/-- C9: back-patching with `change_op` at byte offset P with a 3-byte
instruction (a jump: tag plus 2-byte operand) replaces exactly the
bytes in [P, P+3): the instruction stream keeps its total length,
every byte outside [P, P+3) is unchanged, and the bytes inside are
exactly the fresh encoding. -/
theorem change_op_patches (c : Compiler) (position : Nat) (op_code : OpCode)
    (hlen : (make_op op_code).length = 3)
    (hpos : position + 3 ≤ c.byte_code.instructions.length) :
    (change_op c position op_code).byte_code.instructions.length =
      c.byte_code.instructions.length
    ∧ (∀ i, i < position ∨ position + 3 ≤ i →
        (change_op c position op_code).byte_code.instructions[i]? =
          c.byte_code.instructions[i]?)
    ∧ (∀ j, j < 3 →
        (change_op c position op_code).byte_code.instructions[position + j]? =
          (make_op op_code)[j]?) := by
  set l := c.byte_code.instructions with hl
  have hinstr : (change_op c position op_code).byte_code.instructions =
      l.take position ++ make_op op_code ++ l.drop (position + 3) := by
    simp [change_op, hlen]
  have htake : (l.take position).length = position := by
    rw [List.length_take]
    omega
  refine ⟨?_, ?_, ?_⟩
  · rw [hinstr]
    simp only [List.length_append, List.length_take, List.length_drop]
    omega
  · intro i hi
    rw [hinstr]
    rcases hi with hi | hi
    · rw [List.getElem?_append_left (by simp [List.length_append]; omega),
        List.getElem?_append_left (by omega : i < (l.take position).length),
        List.getElem?_take_of_lt hi]
    · rw [List.getElem?_append_right (by simp [List.length_append]; omega)]
      rw [List.getElem?_drop]
      congr 1
      simp only [List.length_append, htake, hlen]
      omega
  · intro j hj
    rw [hinstr, List.getElem?_append_left (by simp [List.length_append]; omega),
      List.getElem?_append_right (by omega : (l.take position).length ≤ position + j)]
    congr 1
    omega

/-- Witness for C9: patching the placeholder JumpIfNotTrue(9999) at
offset 3 of a 10-byte stream to JumpIfNotTrue(7) keeps the length at
10, leaves bytes 0-2 and 6-9 unchanged, and writes [0x0E, 0, 7] at
offsets 3-5. -/
theorem change_op_patches_witness :
    ((make_op (OpCode.OpJumpNotTrue 7)).length = 3
      ∧ 3 + 3 ≤ ([0x07, 0x01, 0, 0x0E, 39, 15, 0x01, 0, 1, 0x02] : List Nat).length)
    ∧ ((change_op
        { byte_code :=
          { instructions := [0x07, 0x01, 0, 0x0E, 39, 15, 0x01, 0, 1, 0x02],
            constants := [] },
          symbol_table := SymbolTable.new } 3
        (OpCode.OpJumpNotTrue 7)).byte_code.instructions.length =
      ([0x07, 0x01, 0, 0x0E, 39, 15, 0x01, 0, 1, 0x02] : List Nat).length) := by
  have h := change_op_patches
    { byte_code :=
      { instructions := [0x07, 0x01, 0, 0x0E, 39, 15, 0x01, 0, 1, 0x02],
        constants := [] },
      symbol_table := SymbolTable.new } 3
    (OpCode.OpJumpNotTrue 7) (by rfl) (by norm_num)
  exact ⟨⟨rfl, by norm_num⟩, h.1⟩

/-- C10: the VM's fetch-decode-execute loop executes only the opcode
bytes 0x01 through 0x08; fetching any byte outside that range — in
particular any byte 0x09 or greater, which covers the Equals (0x09),
NotEquals (0x0A), GreaterThan (0x0B), Minus (0x0C), Bang (0x0D),
JumpIfNotTrue (0x0E), Jump (0x0F), SetGlobal (0x10) and GetGlobal
(0x11) encodings the compiler can emit — makes `run` fail immediately
with the unhandled-instruction error. -/
theorem run_loop_unhandled (vm : VM) (ip fuel : Nat)
    (h : ip < vm.instructions.length)
    (hb : ¬(1 ≤ vm.instructions.get ⟨ip, h⟩ ∧ vm.instructions.get ⟨ip, h⟩ ≤ 8)) :
    VM.run_loop (fuel + 1) vm ip = Except.error "unhandled instruction" := by
  have hg : vm.instructions[ip] = vm.instructions.get ⟨ip, h⟩ := rfl
  have h1 : vm.instructions[ip] ≠ 0x01 := by rw [hg]; omega
  have h2 : vm.instructions[ip] ≠ 0x02 := by rw [hg]; omega
  have h3 : vm.instructions[ip] ≠ 0x03 := by rw [hg]; omega
  have h4 : vm.instructions[ip] ≠ 0x04 := by rw [hg]; omega
  have h5 : vm.instructions[ip] ≠ 0x05 := by rw [hg]; omega
  have h6 : vm.instructions[ip] ≠ 0x06 := by rw [hg]; omega
  have h7 : vm.instructions[ip] ≠ 0x07 := by rw [hg]; omega
  have h8 : vm.instructions[ip] ≠ 0x08 := by rw [hg]; omega
  simp [VM.run_loop, h, h1, h2, h3, h4, h5, h6, h7, h8]

/-- Witness for C10: a stream whose first byte is the JumpIfNotTrue
tag 0x0E fails immediately. -/
theorem run_loop_unhandled_witness :
    VM.run_loop 1
      { instructions := [0x0E, 0, 7], constants := [],
        stack := fun _ => Object.Null, sp := 0 } 0 =
      Except.error "unhandled instruction" :=
  run_loop_unhandled
    { instructions := [0x0E, 0, 7], constants := [],
      stack := fun _ => Object.Null, sp := 0 } 0 0
    (by norm_num) (by norm_num)

lemma run_loop_arith_step (vm : VM) (ip fuel : Nat) (l r res : Int) (b : Nat)
    (h : ip < vm.instructions.length)
    (hb : vm.instructions.get ⟨ip, h⟩ = b)
    (hsp2 : 2 ≤ vm.sp) (hcap : vm.sp ≤ STACK_SIZE)
    (hr : vm.stack (vm.sp - 1) = Object.Integer r)
    (hl : vm.stack (vm.sp - 2) = Object.Integer l)
    (hop : (b = 0x03 ∧ res = wrap32 (l + r))
      ∨ (b = 0x04 ∧ res = wrap32 (l - r))
      ∨ (b = 0x05 ∧ res = wrap32 (l * r))
      ∨ (b = 0x06 ∧ r ≠ 0 ∧ ¬(l = -2147483648 ∧ r = -1) ∧ res = Int.tdiv l r)) :
    VM.run_loop (fuel + 1) vm ip =
      VM.run_loop fuel (arith_result vm res) (ip + 1) := by
  have hg : vm.instructions[ip] = b := hb
  have hpop1 : vm.pop = Except.ok (Object.Integer r, { vm with sp := vm.sp - 1 }) := by
    rw [VM.pop, if_neg (by omega), hr]
  have hpop2 : ({ vm with sp := vm.sp - 1 } : VM).pop =
      Except.ok (Object.Integer l, { vm with sp := vm.sp - 2 }) := by
    show (if vm.sp - 1 = 0 then _ else _) = _
    rw [if_neg (by omega)]
    show Except.ok (vm.stack (vm.sp - 1 - 1), _) = _
    rw [show vm.sp - 1 - 1 = vm.sp - 2 from by omega, hl]
  have hpush : ({ vm with sp := vm.sp - 2 } : VM).push (Object.Integer res) =
      Except.ok (arith_result vm res) := by
    have hlt : vm.sp - 2 < STACK_SIZE := by
      simp only [STACK_SIZE] at hcap ⊢
      omega
    have e : vm.sp - 2 + 1 = vm.sp - 1 := by omega
    simp [VM.push, arith_result, hlt, e]
  rcases hop with ⟨hbv, hres⟩ | ⟨hbv, hres⟩ | ⟨hbv, hres⟩ | ⟨hbv, hr0, hov, hres⟩
  · subst hbv; subst hres
    simp [VM.run_loop, h, hg, hpop1, hpop2, hpush, bind, Except.bind]
  · subst hbv; subst hres
    simp [VM.run_loop, h, hg, hpop1, hpop2, hpush, bind, Except.bind]
  · subst hbv; subst hres
    simp [VM.run_loop, h, hg, hpop1, hpop2, hpush, bind, Except.bind]
  · subst hbv; subst hres
    simp [VM.run_loop, h, hg, hpop1, hpop2, hpush, hr0, hov, bind, Except.bind]

/-- C4: compiling and running `"1 + 2;"` leaves Integer(3) as the
last-popped result, `"1 - 2;"` leaves Integer(-1), `"3 * 2;"` leaves
Integer(6) and `"6 / 2;"` leaves Integer(3); and for each arithmetic
opcode (Add 0x03, Sub 0x04, Mul 0x05, Div 0x06) the VM pops the right
operand first (the top of stack) and the left operand second (pushed
first, one slot deeper), then pushes the integer result of applying
the operation to left and right (i32 arithmetic; for Div, truncating
division on a non-zero, non-overflowing divisor). -/
theorem arith_programs_and_step_semantics :
    last_popped_of_run 20 add_program = Except.ok (Object.Integer 3)
    ∧ last_popped_of_run 20 sub_program = Except.ok (Object.Integer (-1))
    ∧ last_popped_of_run 20 mul_program = Except.ok (Object.Integer 6)
    ∧ last_popped_of_run 20 div_program = Except.ok (Object.Integer 3)
    ∧ (∀ (vm : VM) (ip fuel : Nat) (l r : Int) (h : ip < vm.instructions.length),
        vm.instructions.get ⟨ip, h⟩ = 0x03 →
        2 ≤ vm.sp → vm.sp ≤ STACK_SIZE →
        vm.stack (vm.sp - 1) = Object.Integer r →
        vm.stack (vm.sp - 2) = Object.Integer l →
        VM.run_loop (fuel + 1) vm ip =
          VM.run_loop fuel (arith_result vm (wrap32 (l + r))) (ip + 1))
    ∧ (∀ (vm : VM) (ip fuel : Nat) (l r : Int) (h : ip < vm.instructions.length),
        vm.instructions.get ⟨ip, h⟩ = 0x04 →
        2 ≤ vm.sp → vm.sp ≤ STACK_SIZE →
        vm.stack (vm.sp - 1) = Object.Integer r →
        vm.stack (vm.sp - 2) = Object.Integer l →
        VM.run_loop (fuel + 1) vm ip =
          VM.run_loop fuel (arith_result vm (wrap32 (l - r))) (ip + 1))
    ∧ (∀ (vm : VM) (ip fuel : Nat) (l r : Int) (h : ip < vm.instructions.length),
        vm.instructions.get ⟨ip, h⟩ = 0x05 →
        2 ≤ vm.sp → vm.sp ≤ STACK_SIZE →
        vm.stack (vm.sp - 1) = Object.Integer r →
        vm.stack (vm.sp - 2) = Object.Integer l →
        VM.run_loop (fuel + 1) vm ip =
          VM.run_loop fuel (arith_result vm (wrap32 (l * r))) (ip + 1))
    ∧ (∀ (vm : VM) (ip fuel : Nat) (l r : Int) (h : ip < vm.instructions.length),
        vm.instructions.get ⟨ip, h⟩ = 0x06 →
        2 ≤ vm.sp → vm.sp ≤ STACK_SIZE →
        vm.stack (vm.sp - 1) = Object.Integer r →
        vm.stack (vm.sp - 2) = Object.Integer l →
        r ≠ 0 → ¬(l = -2147483648 ∧ r = -1) →
        VM.run_loop (fuel + 1) vm ip =
          VM.run_loop fuel (arith_result vm (Int.tdiv l r)) (ip + 1)) := by
  refine ⟨rfl, rfl, rfl, rfl, ?_, ?_, ?_, ?_⟩
  · intro vm ip fuel l r h hb hsp2 hcap hr hl
    exact run_loop_arith_step vm ip fuel l r (wrap32 (l + r)) 0x03 h hb hsp2 hcap hr hl
      (Or.inl ⟨rfl, rfl⟩)
  · intro vm ip fuel l r h hb hsp2 hcap hr hl
    exact run_loop_arith_step vm ip fuel l r (wrap32 (l - r)) 0x04 h hb hsp2 hcap hr hl
      (Or.inr (Or.inl ⟨rfl, rfl⟩))
  · intro vm ip fuel l r h hb hsp2 hcap hr hl
    exact run_loop_arith_step vm ip fuel l r (wrap32 (l * r)) 0x05 h hb hsp2 hcap hr hl
      (Or.inr (Or.inr (Or.inl ⟨rfl, rfl⟩)))
  · intro vm ip fuel l r h hb hsp2 hcap hr hl hr0 hov
    exact run_loop_arith_step vm ip fuel l r (Int.tdiv l r) 0x06 h hb hsp2 hcap hr hl
      (Or.inr (Or.inr (Or.inr ⟨rfl, hr0, hov, rfl⟩)))

/-- Witness for C4: one concrete Add step — stack holding
Integer 1 (left, slot 0) and Integer 2 (right, slot 1), a single Add
instruction — rewrites to the continuation state whose slot 0 holds
Integer 3. -/
theorem arith_programs_and_step_semantics_witness :
    VM.run_loop 1
      { instructions := [0x03], constants := [],
        stack := fun i => if i = 1 then Object.Integer 2
          else if i = 0 then Object.Integer 1 else Object.Null,
        sp := 2 } 0 =
    VM.run_loop 0
      (arith_result
        { instructions := [0x03], constants := [],
          stack := fun i => if i = 1 then Object.Integer 2
            else if i = 0 then Object.Integer 1 else Object.Null,
          sp := 2 } (wrap32 (1 + 2))) 1 :=
  (arith_programs_and_step_semantics.2.2.2.2.1
    { instructions := [0x03], constants := [],
      stack := fun i => if i = 1 then Object.Integer 2
        else if i = 0 then Object.Integer 1 else Object.Null,
      sp := 2 } 0 0 1 2 (by norm_num) rfl (by norm_num) (by norm_num [STACK_SIZE])
    rfl rfl)

end Monkey
